import Mathlib

/-!
Verification of the ledger-engine specification extracted from the CMPSC263
teaching contracts, against shallow embeddings of the Solidity sources:

* `Coin`            — src/SolidityIntro/CoreContracts/Simple_Coin.sol
* `SimpleCoin`      — src/SolidityIntro/ConstructorAndFallback.sol (second contract)
* `TokenBase`       — src/SolidityIntro/ConstructorAndFallback.sol (third contract)
* `SecurityPitfalls`— src/unnamed/part_001

Modelling conventions:

* `uint256` quantities are embedded as `Nat` (or as `Int` for `TokenBase`,
  where non-negativity is itself the property under scrutiny); the 2^256
  range cap is not modelled, since none of the claims exercises overflow.
* A reverting Solidity call is embedded as `Except Err σ` returning
  `.error e`: the caller observes no state change (full EVM rollback).
  `outcome s r` is the state the caller of a transaction sees afterwards.
* `require` failures are mapped to the error taxonomy of the specification
  (`NotAuthorized`, `InsufficientBalance{requested, available}`,
  `ReentrantCall`, `TransferFailed`, plus `ZeroAddress` and `Overflow`
  for the corresponding `TokenBase` / `SimpleCoin` requires).
* The external value-transfer effect of `safeWithdraw`
  (`msg.sender.call{value: _amount}("")`) is an abstract collaborator
  `Effect := SPState → SPState × Bool`: it may mutate contract state only
  by calling back into the contract, and reports success as a `Bool`.
-/

/-- Error taxonomy of the specification (section 7), with each constructor
standing for the corresponding `require` / custom error of the sources. -/
inductive Err : Type where
  | NotAuthorized : Err
  | InsufficientBalance : Nat → Nat → Err
  | ReentrantCall : Err
  | TransferFailed : Err
  | ZeroAddress : Err
  | Overflow : Err
deriving DecidableEq, Repr

/-- State a caller observes after a transaction: the new state on success,
the unchanged pre-call state on revert (EVM rollback semantics). -/
def outcome {σ : Type} (s : σ) : Except Err σ → σ
  | .ok s' => s'
  | .error _ => s

/-! ### Coin — src/SolidityIntro/CoreContracts/Simple_Coin.sol -/

/-- State of the `Coin` contract: `minter` set by the constructor,
`balances : mapping(address => uint)`. Addresses are embedded as `Nat`. -/
structure CoinState where
  minter : Nat
  balances : Nat → Nat

/-- Constructor of `Coin`: `minter = msg.sender`, empty balances. -/
def Coin.init (deployer : Nat) : CoinState :=
  ⟨deployer, fun _ => 0⟩

/-- `Coin.mint(receiver, amount)` called by `caller`:
`require(msg.sender == minter)` then `balances[receiver] += amount`. -/
def Coin.mint (caller receiver amount : Nat) (s : CoinState) : Except Err CoinState :=
  if caller = s.minter then
    .ok { s with balances := Function.update s.balances receiver (s.balances receiver + amount) }
  else
    .error .NotAuthorized

/-- `Coin.send(receiver, amount)` called by `caller`: reverts with
`InsufficientBalance{requested: amount, available: balances[msg.sender]}`
when `amount > balances[msg.sender]`, otherwise subtracts from the sender
and then adds to the receiver. -/
def Coin.send (caller receiver amount : Nat) (s : CoinState) : Except Err CoinState :=
  if s.balances caller < amount then
    .error (.InsufficientBalance amount (s.balances caller))
  else
    let b1 := Function.update s.balances caller (s.balances caller - amount)
    .ok { s with balances := Function.update b1 receiver (b1 receiver + amount) }

/-! ### SecurityPitfalls — src/unnamed/part_001 (guarded operations) -/

/-- State of the `SecurityPitfalls` contract: `owner`, the
`balances` mapping, and the private reentrancy flag `locked`. -/
structure SPState where
  owner : Nat
  balances : Nat → Nat
  locked : Bool

/-- Constructor of `SecurityPitfalls`: `owner = msg.sender`,
empty balances, `locked` initially false. -/
def SP.init (deployer : Nat) : SPState :=
  ⟨deployer, fun _ => 0, false⟩

/-- The external value-transfer collaborator behind
`msg.sender.call{value: _amount}("")`: receives control at the current
contract state, may call back into the contract, and returns the possibly
mutated state together with its success flag. -/
def Effect : Type := SPState → SPState × Bool

/-- An external transferee that does nothing and reports success. -/
def okEff : Effect := fun s => (s, true)

/-- An external transferee that does nothing and reports failure
(an uncooperative or reverting recipient). -/
def failEff : Effect := fun s => (s, false)

/-- An external transferee that observes the balance of `c` at the moment
it receives control and decides success by `g` applied to that balance. -/
def obsEff (c : Nat) (g : Nat → Bool) : Effect := fun s => (s, g (s.balances c))

/-- `SecurityPitfalls.safeWithdraw(_amount)` called by `caller`, with the
external value transfer abstracted as `eff`. Faithful to the source order:
the `noReentrancy` modifier first (`require(!locked)`, then `locked = true`),
the balance check, the balance decrement, then the external call, then
`require(success)`, and finally the modifier releases the lock. Any revert
rolls back everything, including the lock acquisition. -/
def SP.safeWithdraw (eff : Effect) (caller amount : Nat) (s : SPState) : Except Err SPState :=
  if s.locked then .error .ReentrantCall
  else
    let s1 := { s with locked := true }
    if s1.balances caller < amount then .error (.InsufficientBalance amount (s1.balances caller))
    else
      let s2 := { s1 with balances := Function.update s1.balances caller (s1.balances caller - amount) }
      let r := eff s2
      if r.2 then .ok { r.1 with locked := false }
      else .error .TransferFailed

/-- An external transferee that re-invokes `safeWithdraw` for `amt2` on the
same contract mid-call, swallows the failure of that nested call, and
reports success to the outer call (the reentrancy attacker of the claim). -/
def reenterEff (c amt2 : Nat) : Effect := fun s =>
  match SP.safeWithdraw okEff c amt2 s with
  | .ok s' => (s', true)
  | .error _ => (s, true)

/-- `SecurityPitfalls.safeChangeOwner(_newOwner)` called by `caller`:
`onlyOwner` modifier, then `owner = _newOwner`. -/
def SP.safeChangeOwner (caller newOwner : Nat) (s : SPState) : Except Err SPState :=
  if caller = s.owner then .ok { s with owner := newOwner }
  else .error .NotAuthorized

/-- `SecurityPitfalls.unsafeChangeOwner(_newOwner)` called by `caller`:
no access control at all, `owner = _newOwner`, never reverts. -/
def SP.openChangeOwner (caller newOwner : Nat) (s : SPState) : Except Err SPState :=
  .ok { s with owner := newOwner }

/-! ### TokenBase — src/SolidityIntro/ConstructorAndFallback.sol (third contract)

Addresses are embedded as `Fin (n+1)` for an arbitrary `n`, so that the
sum of all balances is a finite sum and the address `0` plays the role of
`address(0)`. Balances are embedded as `Int` (not `Nat`) so that
non-negativity is a provable invariant of the operations rather than a
fact of the carrier type. -/

/-- State of the `TokenBase` contract: `_balances` and `_totalSupply`. -/
structure TBState (n : Nat) where
  balances : Fin (n + 1) → Int
  totalSupply : Int

/-- A fresh `TokenBase` ledger: empty balances, zero supply (Solidity
storage defaults to zero). -/
def TokenBase.fresh (n : Nat) : TBState n :=
  ⟨fun _ => 0, 0⟩

/-- `TokenBase._transfer(from, to, amount)`: requires nonzero addresses
and `_balances[from] >= amount`, then decrements the sender and
increments the receiver. `from`/`to` are rendered `sender`/`receiver`
because `from` is reserved in Lean. -/
def TokenBase._transfer {n : Nat} (sender receiver : Fin (n + 1)) (amount : Nat)
    (s : TBState n) : Except Err (TBState n) :=
  if sender = 0 then .error .ZeroAddress
  else if receiver = 0 then .error .ZeroAddress
  else if s.balances sender < (amount : Int) then
    .error (.InsufficientBalance amount (s.balances sender).toNat)
  else
    .ok { s with balances :=
      (Function.update (Function.update s.balances sender (s.balances sender - (amount : Int)))
        receiver
        (Function.update s.balances sender (s.balances sender - (amount : Int)) receiver
          + (amount : Int))) }

/-- `TokenBase._mint(account, amount)`: requires a nonzero account, then
`_totalSupply += amount; _balances[account] += amount`. -/
def TokenBase._mint {n : Nat} (account : Fin (n + 1)) (amount : Nat)
    (s : TBState n) : Except Err (TBState n) :=
  if account = 0 then .error .ZeroAddress
  else
    .ok ⟨Function.update s.balances account (s.balances account + (amount : Int)),
      s.totalSupply + (amount : Int)⟩

/-- `TokenBase._burn(account, amount)`: requires a nonzero account and
`_balances[account] >= amount`, then
`_balances[account] -= amount; _totalSupply -= amount`. -/
def TokenBase._burn {n : Nat} (account : Fin (n + 1)) (amount : Nat)
    (s : TBState n) : Except Err (TBState n) :=
  if account = 0 then .error .ZeroAddress
  else if s.balances account < (amount : Int) then
    .error (.InsufficientBalance amount (s.balances account).toNat)
  else
    .ok ⟨Function.update s.balances account (s.balances account - (amount : Int)),
      s.totalSupply - (amount : Int)⟩

/-- Ledger states reachable from a fresh `TokenBase` ledger by sequences
of successful `_mint` / `_transfer` / `_burn` operations. -/
inductive TokenBase.Reach (n : Nat) : TBState n → Prop where
  | fresh : TokenBase.Reach n (TokenBase.fresh n)
  | mint (s : TBState n) (a : Fin (n + 1)) (amt : Nat) (s' : TBState n) :
      TokenBase.Reach n s → TokenBase._mint a amt s = .ok s' → TokenBase.Reach n s'
  | xfer (s : TBState n) (a b : Fin (n + 1)) (amt : Nat) (s' : TBState n) :
      TokenBase.Reach n s → TokenBase._transfer a b amt s = .ok s' → TokenBase.Reach n s'
  | burn (s : TBState n) (a : Fin (n + 1)) (amt : Nat) (s' : TBState n) :
      TokenBase.Reach n s → TokenBase._burn a amt s = .ok s' → TokenBase.Reach n s'

/-- Concrete reachable `TokenBase` state for the conservation witness:
the result of `_mint 1 100` on a fresh two-account ledger. -/
def sC1w : TBState 2 :=
  ⟨Function.update (TokenBase.fresh 2).balances 1
    ((TokenBase.fresh 2).balances 1 + ((100 : Nat) : Int)),
   (TokenBase.fresh 2).totalSupply + ((100 : Nat) : Int)⟩

/-! ### SimpleCoin — src/SolidityIntro/ConstructorAndFallback.sol (second contract) -/

/-- State of the `SimpleCoin` contract: `owner` and the `balanceOf`
mapping (name, symbol and decimals carry no ledger content and are
omitted). Addresses are `Fin (n+1)` so balances can be summed. -/
structure SCState (n : Nat) where
  owner : Fin (n + 1)
  balanceOf : Fin (n + 1) → Nat

/-- Constructor of `SimpleCoin`: sets the owner and mints
`_initialSupply * 10**18` to the deployer. -/
def SimpleCoin.init (n : Nat) (deployer : Fin (n + 1)) (initialSupply : Nat) : SCState n :=
  ⟨deployer, Function.update (fun _ => 0) deployer (initialSupply * 10 ^ 18)⟩

/-- `SimpleCoin.mint(_to, _value)` called by `caller`: requires
`msg.sender == owner`, has an always-true overflow `require` (embedded
verbatim), then `balanceOf[_to] += _value`. -/
def SimpleCoin.mint {n : Nat} (caller receiver : Fin (n + 1)) (value : Nat)
    (s : SCState n) : Except Err (SCState n) :=
  if caller = s.owner then
    if s.balanceOf receiver + value ≥ s.balanceOf receiver then
      .ok { s with balanceOf := Function.update s.balanceOf receiver (s.balanceOf receiver + value) }
    else .error .Overflow
  else .error .NotAuthorized

/-- `SimpleCoin.totalSupply()`: the source returns `balanceOf[owner]`
(its comment concedes this is a simplification). -/
def SimpleCoin.totalSupply {n : Nat} (s : SCState n) : Nat :=
  s.balanceOf s.owner

/-! ### SecurityPitfalls.unsafeWithdraw — reentrancy execution model

`unsafeWithdraw` makes its external call before decrementing the balance
and is not guarded by the lock, so the external transferee can call back
into the contract. To reason about every such attacker we model the
attacker as a program that, each time it receives value, may issue
further calls into the contract (re-invoking `unsafeWithdraw`, or
depositing its own ether) and finally answers the pending transfer with a
success flag. Ether is modelled explicitly (`contractEth`, `attEth`) and
execution is fuel-indexed (gas): with fuel exhausted a call reverts.
Solidity `^0.8.0` semantics are kept faithfully: the balance decrement is
a checked subtraction whose underflow reverts the whole frame, a revert
rolls back every nested effect of that frame, and the attacker may
swallow the revert of a nested call it issued. -/

/-- State for the `unsafeWithdraw` model: the contract balances mapping,
the ether actually held by the contract, and the ether held by the
attacking account. -/
structure EState where
  balances : Nat → Nat
  contractEth : Nat
  attEth : Nat

/-- Attacker program run whenever the contract hands value to the
attacker: answer the pending transfer (`ret`), re-invoke
`unsafeWithdraw` (`callU`), or call `deposit` with own ether (`callD`);
continuations observe the success of the call and the resulting state. -/
inductive AProg : Type where
  | ret : Bool → AProg
  | callU : Nat → (Bool → EState → AProg) → AProg
  | callD : Nat → (Bool → EState → AProg) → AProg

/-- Attacker strategy: the program run at each incoming value transfer,
chosen from the state at that moment. -/
def Strat : Type := EState → AProg

/-- Fuel-indexed interpreter. `(interp atk strat f).1 amt s` runs
`unsafeWithdraw(amt)` called by `atk` (returning `none` on revert);
`(interp atk strat f).2 p s` runs the attacker program `p` (returning the
final state and the flag the attacker answers to the pending transfer).
The withdraw branch follows the source order: balance `require`, then the
external value transfer (which runs the attacker), then
`require(success)`, and only then the checked decrement
`balances[msg.sender] -= _amount`, whose underflow reverts. -/
def interp (atk : Nat) (strat : Strat) :
    Nat → (Nat → EState → Option EState) × (AProg → EState → EState × Bool)
  | 0 => (fun _ _ => none, fun _ s => (s, false))
  | f + 1 =>
    let prev := interp atk strat f
    ( fun amt s =>
        if amt ≤ s.balances atk then
          if amt ≤ s.contractEth then
            let s1 : EState := ⟨s.balances, s.contractEth - amt, s.attEth + amt⟩
            let r := prev.2 (strat s1) s1
            if r.2 then
              if amt ≤ r.1.balances atk then
                some ⟨Function.update r.1.balances atk (r.1.balances atk - amt),
                  r.1.contractEth, r.1.attEth⟩
              else none
            else none
          else none
        else none,
      fun p s =>
        match p with
        | .ret b => (s, b)
        | .callU amt k =>
          match prev.1 amt s with
          | some s' => prev.2 (k true s') s'
          | none => prev.2 (k false s) s
        | .callD amt k =>
          if amt ≤ s.attEth then
            let s' : EState := ⟨Function.update s.balances atk (s.balances atk + amt),
              s.contractEth + amt, s.attEth - amt⟩
            prev.2 (k true s') s'
          else prev.2 (k false s) s )

/-- Top-level `unsafeWithdraw(amt)` transaction issued by the attacker
`atk` against strategy `strat` with the given fuel. -/
def runWithdrawU (atk : Nat) (strat : Strat) (fuel amt : Nat) (s : EState) : Option EState :=
  (interp atk strat fuel).1 amt s

/-- The quantity conserved by every interaction of the attacker with the
contract: its ether plus its recorded balance. -/
def phi (atk : Nat) (s : EState) : Nat :=
  s.attEth + s.balances atk

/-- The canonical reentrancy attacker: on every incoming transfer,
re-invoke `unsafeWithdraw(amt)` once more and report success regardless. -/
def drainStrat (amt : Nat) : Strat :=
  fun _ => .callU amt (fun _ _ => .ret true)

/-! ### Theorems for claims C5, C7, C8, C9 -/

/-- Claim C5: for every caller, recipient and amount with
`balances[caller] < amount`, `Coin.send` fails with
`InsufficientBalance{requested = amount, available = balances[caller]}`
and, by revert semantics, the caller-visible state (hence every balance
and any derived total supply) is exactly unchanged. -/
theorem coin_send_insufficient (caller receiver amount : Nat) (s : CoinState)
    (h : s.balances caller < amount) :
    Coin.send caller receiver amount s = .error (.InsufficientBalance amount (s.balances caller)) ∧
    outcome s (Coin.send caller receiver amount s) = s := by
  unfold Coin.send
  rw [if_pos h]
  exact ⟨rfl, rfl⟩

/-- Witness for C5: `Coin.send 1 2 5` on a state where account 1 holds 3. -/
theorem coin_send_insufficient_w :
    (CoinState.mk 0 (fun a => if a = 1 then 3 else 0)).balances 1 < 5 ∧
    (Coin.send 1 2 5 ⟨0, fun a => if a = 1 then 3 else 0⟩ =
      .error (.InsufficientBalance 5 ((CoinState.mk 0 (fun a => if a = 1 then 3 else 0)).balances 1)) ∧
     outcome ⟨0, fun a => if a = 1 then 3 else 0⟩ (Coin.send 1 2 5 ⟨0, fun a => if a = 1 then 3 else 0⟩) =
      ⟨0, fun a => if a = 1 then 3 else 0⟩) :=
  ⟨by decide, coin_send_insufficient 1 2 5 ⟨0, fun a => if a = 1 then 3 else 0⟩ (by decide)⟩

/-- Claim C7: a caller that is not the current owner always fails with
`NotAuthorized` on `Coin.mint` (the minting entry point) and on
`SecurityPitfalls.safeChangeOwner` (the ownership-transfer entry point),
and in both cases the caller-visible state — balances, any total supply,
and the owner — is exactly unchanged. -/
theorem nonowner_mint_setOwner_rejected (c receiver amount c2 newOwner : Nat)
    (s : CoinState) (sp : SPState)
    (h1 : c ≠ s.minter) (h2 : c2 ≠ sp.owner) :
    Coin.mint c receiver amount s = .error .NotAuthorized ∧
    outcome s (Coin.mint c receiver amount s) = s ∧
    SP.safeChangeOwner c2 newOwner sp = .error .NotAuthorized ∧
    outcome sp (SP.safeChangeOwner c2 newOwner sp) = sp := by
  unfold Coin.mint SP.safeChangeOwner
  rw [if_neg h1, if_neg h2]
  exact ⟨rfl, rfl, rfl, rfl⟩

/-- Witness for C7: account 3 is neither the `Coin` minter 0 nor the
`SecurityPitfalls` owner 7, and both calls are rejected without effect. -/
theorem nonowner_mint_setOwner_rejected_w :
    (3 ≠ (Coin.init 0).minter ∧ 3 ≠ (SP.init 7).owner) ∧
    (Coin.mint 3 2 10 (Coin.init 0) = .error .NotAuthorized ∧
     outcome (Coin.init 0) (Coin.mint 3 2 10 (Coin.init 0)) = Coin.init 0 ∧
     SP.safeChangeOwner 3 4 (SP.init 7) = .error .NotAuthorized ∧
     outcome (SP.init 7) (SP.safeChangeOwner 3 4 (SP.init 7)) = SP.init 7) :=
  ⟨⟨by decide, by decide⟩,
   nonowner_mint_setOwner_rejected 3 2 10 3 4 (Coin.init 0) (SP.init 7) (by decide) (by decide)⟩

/-- Claim C8: a self-transfer `Coin.send caller caller amount` is a
validated no-op: when `amount ≤ balances[caller]` it succeeds and leaves
every balance (and the minter) unchanged, and when
`amount > balances[caller]` it fails with `InsufficientBalance`. -/
theorem coin_send_self (caller amount : Nat) (s : CoinState) :
    Coin.send caller caller amount s =
      (if s.balances caller < amount then
        .error (.InsufficientBalance amount (s.balances caller))
      else .ok ⟨s.minter, s.balances⟩) := by
  by_cases h : s.balances caller < amount
  · simp only [Coin.send, if_pos h]
  · have hle : amount ≤ s.balances caller := Nat.le_of_not_lt h
    simp only [Coin.send, if_neg h, Function.update_same, Function.update_idem,
      Nat.sub_add_cancel hle, Function.update_eq_self]

/-- Claim C4: for a caller with sufficient balance, if the external
value-transfer effect reports failure, the whole `safeWithdraw` operation
fails with `TransferFailed`; under the embedded rollback policy (full EVM
revert, matching the source) the caller-visible balance is the
pre-decrement value, which is one of the two policies the claim admits. -/
theorem safeWithdraw_transfer_failed (c amt : Nat) (s : SPState)
    (h0 : s.locked = false) (h1 : amt ≤ s.balances c) :
    SP.safeWithdraw failEff c amt s = .error .TransferFailed ∧
    outcome s (SP.safeWithdraw failEff c amt s) = s := by
  have hnl : ¬ s.balances c < amt := Nat.not_lt.2 h1
  simp [SP.safeWithdraw, failEff, h0, hnl, outcome]

/-- Witness for C4: account 1 holds 10, withdraws 4 against a failing
transferee; the call fails with `TransferFailed` and the state is intact. -/
theorem safeWithdraw_transfer_failed_w :
    ((SPState.mk 0 (fun a => if a = 1 then 10 else 0) false).locked = false ∧
     4 ≤ (SPState.mk 0 (fun a => if a = 1 then 10 else 0) false).balances 1) ∧
    (SP.safeWithdraw failEff 1 4 ⟨0, fun a => if a = 1 then 10 else 0, false⟩ =
      .error .TransferFailed ∧
     outcome ⟨0, fun a => if a = 1 then 10 else 0, false⟩
      (SP.safeWithdraw failEff 1 4 ⟨0, fun a => if a = 1 then 10 else 0, false⟩) =
      ⟨0, fun a => if a = 1 then 10 else 0, false⟩) :=
  ⟨⟨rfl, by decide⟩,
   safeWithdraw_transfer_failed 1 4 ⟨0, fun a => if a = 1 then 10 else 0, false⟩ rfl (by decide)⟩

/-- Claim C3: checks-effects-interactions ordering of `safeWithdraw`.
For every caller with sufficient balance and every external transferee
that decides its answer by observing the balance of the caller at the
moment it receives control (`obsEff c g`), the observed value is the
post-decrement balance `balances[caller] - amount`: the decrement happens
strictly before the external interaction. -/
theorem safeWithdraw_checks_effects_order (g : Nat → Bool) (c amt : Nat) (s : SPState)
    (h0 : s.locked = false) (h1 : amt ≤ s.balances c) :
    SP.safeWithdraw (obsEff c g) c amt s =
      (if g (s.balances c - amt) then
        .ok ⟨s.owner, Function.update s.balances c (s.balances c - amt), false⟩
      else .error .TransferFailed) := by
  have hnl : ¬ s.balances c < amt := Nat.not_lt.2 h1
  simp [SP.safeWithdraw, obsEff, h0, hnl]

/-- Witness for C3: account 1 holds 10 and withdraws 4; a transferee that
tests whether it observes the balance 6 (the post-decrement value)
answers yes, so the call succeeds. -/
theorem safeWithdraw_checks_effects_order_w :
    ((SPState.mk 0 (fun a => if a = 1 then 10 else 0) false).locked = false ∧
     4 ≤ (SPState.mk 0 (fun a => if a = 1 then 10 else 0) false).balances 1) ∧
    SP.safeWithdraw (obsEff 1 (fun b => b = 6)) 1 4 ⟨0, fun a => if a = 1 then 10 else 0, false⟩ =
      (if ((fun b => (b = 6 : Bool)) ((SPState.mk 0 (fun a => if a = 1 then 10 else 0) false).balances 1 - 4)) then
        .ok ⟨0, Function.update (fun a => if a = 1 then 10 else 0) 1
          ((SPState.mk 0 (fun a => if a = 1 then 10 else 0) false).balances 1 - 4), false⟩
      else .error .TransferFailed) :=
  ⟨⟨rfl, by decide⟩,
   safeWithdraw_checks_effects_order (fun b => b = 6) 1 4
     ⟨0, fun a => if a = 1 then 10 else 0, false⟩ rfl (by decide)⟩

/-- Claim C2: lock discipline and reentrancy rejection. On a quiescent
state (`locked = false`) with sufficient balance: the lock is false at
construction; a nested `safeWithdraw` issued while the outer call is at
its interaction step (lock held, balance already decremented) fails with
`ReentrantCall`; the outer call against the reentering transferee
nonetheless completes, with the balance decremented exactly once and the
lock released; after any transferee whatsoever — succeeding, failing, or
reentering — the caller-visible lock is false again; and an independent
`safeWithdraw` issued after the outer call returns succeeds normally. -/
theorem safeWithdraw_reentrancy_discipline (d c amt amt2 amt3 : Nat) (s : SPState) (eff : Effect)
    (h0 : s.locked = false) (h1 : amt ≤ s.balances c) (h2 : amt3 ≤ s.balances c - amt) :
    (SP.init d).locked = false ∧
    SP.safeWithdraw okEff c amt2
      ⟨s.owner, Function.update s.balances c (s.balances c - amt), true⟩ =
      .error .ReentrantCall ∧
    SP.safeWithdraw (reenterEff c amt2) c amt s =
      .ok ⟨s.owner, Function.update s.balances c (s.balances c - amt), false⟩ ∧
    (outcome s (SP.safeWithdraw eff c amt s)).locked = false ∧
    (∃ s2, SP.safeWithdraw okEff c amt3
        ⟨s.owner, Function.update s.balances c (s.balances c - amt), false⟩ = .ok s2 ∧
      s2.locked = false ∧ s2.balances c = s.balances c - amt - amt3) := by
  have hnl : ¬ s.balances c < amt := Nat.not_lt.2 h1
  refine ⟨rfl, rfl, ?_, ?_, ?_⟩
  · simp [SP.safeWithdraw, reenterEff, okEff, h0, hnl]
  · simp only [SP.safeWithdraw, h0, Bool.false_eq_true, if_false, hnl]
    cases hr : (eff ⟨s.owner, Function.update s.balances c (s.balances c - amt), true⟩).2 <;>
      simp [hr, outcome, h0]
  · have hnl3 : ¬ Function.update s.balances c (s.balances c - amt) c < amt3 := by
      rw [Function.update_same]; exact Nat.not_lt.2 h2
    refine ⟨⟨s.owner, Function.update (Function.update s.balances c (s.balances c - amt)) c
      (Function.update s.balances c (s.balances c - amt) c - amt3), false⟩, ?_, rfl, ?_⟩
    · simp [SP.safeWithdraw, okEff, hnl3, h2]
    · simp [Function.update_same]

/-- Witness for C2: account 1 holds 10, the outer withdraw takes 4 while
the transferee attempts a nested withdraw of 3, and a subsequent
independent withdraw takes 2. -/
theorem safeWithdraw_reentrancy_discipline_w :
    ((SPState.mk 0 (fun a => if a = 1 then 10 else 0) false).locked = false ∧
     4 ≤ (SPState.mk 0 (fun a => if a = 1 then 10 else 0) false).balances 1 ∧
     2 ≤ (SPState.mk 0 (fun a => if a = 1 then 10 else 0) false).balances 1 - 4) ∧
    ((SP.init 9).locked = false ∧
     SP.safeWithdraw okEff 1 3
       ⟨0, Function.update (fun a => if a = 1 then 10 else 0) 1
         ((fun a => if a = 1 then (10:Nat) else 0) 1 - 4), true⟩ =
       .error .ReentrantCall ∧
     SP.safeWithdraw (reenterEff 1 3) 1 4 ⟨0, fun a => if a = 1 then 10 else 0, false⟩ =
       .ok ⟨0, Function.update (fun a => if a = 1 then 10 else 0) 1
         ((fun a => if a = 1 then (10:Nat) else 0) 1 - 4), false⟩ ∧
     (outcome ⟨0, fun a => if a = 1 then 10 else 0, false⟩
       (SP.safeWithdraw okEff 1 4 ⟨0, fun a => if a = 1 then 10 else 0, false⟩)).locked = false ∧
     (∃ s2, SP.safeWithdraw okEff 1 2
         ⟨0, Function.update (fun a => if a = 1 then 10 else 0) 1
           ((fun a => if a = 1 then (10:Nat) else 0) 1 - 4), false⟩ = .ok s2 ∧
       s2.locked = false ∧
       s2.balances 1 = (fun a => if a = 1 then (10:Nat) else 0) 1 - 4 - 2)) :=
  ⟨⟨rfl, by decide, by decide⟩,
   safeWithdraw_reentrancy_discipline 9 1 4 3 2
     ⟨0, fun a => if a = 1 then 10 else 0, false⟩ okEff rfl (by decide) (by decide)⟩

/-- Claim C9: `SecurityPitfalls.unsafeChangeOwner` (embedded as
`SP.openChangeOwner`) succeeds for every caller, owner or not, and sets
the owner to the requested address, with no authorization check: ownership
is mutable by any account through this operation. -/
theorem openChangeOwner_no_auth (caller newOwner : Nat) (s : SPState) :
    SP.openChangeOwner caller newOwner s = .ok ⟨newOwner, s.balances, s.locked⟩ ∧
    (outcome s (SP.openChangeOwner caller newOwner s)).owner = newOwner :=
  ⟨rfl, rfl⟩

/-! ### Theorems for claims C1, C6 (TokenBase), the C1 counterexample,
and C10 (unsafeWithdraw) -/

/-- Updating one entry of a finitely-indexed family changes its sum by
the difference at that entry. -/
theorem sum_update_int {m : Nat} (f : Fin m → Int) (a : Fin m) (v : Int) :
    (∑ x, Function.update f a v x) = (∑ x, f x) - f a + v := by
  rw [Finset.sum_update_of_mem (Finset.mem_univ a)]
  have h1 : (∑ x ∈ Finset.univ \ {a}, f x) + ∑ x ∈ ({a} : Finset (Fin m)), f x = ∑ x, f x :=
    Finset.sum_sdiff (Finset.subset_univ {a})
  rw [Finset.sum_singleton] at h1
  omega

/-- Claim C1 (amended): conservation holds for the `TokenBase` ledger,
the source component that actually maintains a `_totalSupply` variable.
Every state reachable from a fresh ledger by successful
`_mint` / `_transfer` / `_burn` operations has `_totalSupply` equal to
the sum of all balance entries. -/
theorem tokenBase_conservation (n : Nat) (s : TBState n) (h : TokenBase.Reach n s) :
    s.totalSupply = ∑ a, s.balances a := by
  induction h with
  | fresh => simp [TokenBase.fresh]
  | mint s a amt s' hr heq ih =>
    unfold TokenBase._mint at heq
    split at heq
    · simp at heq
    · injection heq with h2
      subst h2
      simp only [sum_update_int]
      omega
  | xfer s a b amt s' hr heq ih =>
    unfold TokenBase._transfer at heq
    split at heq
    · simp at heq
    · split at heq
      · simp at heq
      · split at heq
        · simp at heq
        · injection heq with h2
          subst h2
          simp only [sum_update_int]
          omega
  | burn s a amt s' hr heq ih =>
    unfold TokenBase._burn at heq
    split at heq
    · simp at heq
    · split at heq
      · simp at heq
      · injection heq with h2
        subst h2
        simp only [sum_update_int]
        omega

/-- Witness for C1: the reachable state after `_mint 1 100` on a fresh
ledger satisfies conservation. -/
theorem tokenBase_conservation_w : sC1w.totalSupply = ∑ a, sC1w.balances a :=
  tokenBase_conservation 2 sC1w
    (TokenBase.Reach.mint (TokenBase.fresh 2) 1 100 sC1w TokenBase.Reach.fresh rfl)

/-- Counterexample for C1 as stated: on the cited `SimpleCoin` contract,
already one successful `mint` of 100 to a non-owner account from the
fresh ledger (deployed with initial supply 0) makes the `totalSupply`
query — which returns `balanceOf[owner]` — differ from the sum of all
balance entries (0 versus 100). -/
theorem simpleCoin_totalSupply_cex :
    ∃ s1 : SCState 2, SimpleCoin.mint 1 2 100 (SimpleCoin.init 2 1 0) = .ok s1 ∧
      SimpleCoin.totalSupply s1 ≠ ∑ a, s1.balanceOf a := by
  refine ⟨_, rfl, ?_⟩
  decide

/-- All balances of a reachable `TokenBase` state are non-negative. -/
theorem tokenBase_reach_nonneg {n : Nat} (s : TBState n) (h : TokenBase.Reach n s) :
    ∀ a, 0 ≤ s.balances a := by
  induction h with
  | fresh => intro a; simp [TokenBase.fresh]
  | mint s a amt s' hr heq ih =>
    unfold TokenBase._mint at heq
    split at heq
    · simp at heq
    · injection heq with h2
      subst h2
      intro x
      have h1 := ih x
      have h2 := ih a
      simp only [Function.update_apply]
      split_ifs <;> omega
  | xfer s a b amt s' hr heq ih =>
    unfold TokenBase._transfer at heq
    split at heq
    · simp at heq
    · split at heq
      · simp at heq
      · split at heq
        · simp at heq
        · injection heq with h2
          subst h2
          intro x
          have h1 := ih x
          have h2 := ih a
          have h3 := ih b
          simp only [Function.update_apply]
          split_ifs <;> omega
  | burn s a amt s' hr heq ih =>
    unfold TokenBase._burn at heq
    split at heq
    · simp at heq
    · split at heq
      · simp at heq
      · injection heq with h2
        subst h2
        intro x
        have h1 := ih x
        have h2 := ih a
        simp only [Function.update_apply]
        split_ifs <;> omega

/-- Claim C6: non-negativity. Every reachable `TokenBase` state has only
non-negative balances, and a `_transfer` or `_burn` whose amount exceeds
the sender balance (which would drive it negative) is rejected with an
error, the caller-visible state being exactly unchanged (atomic
rejection, no partial mutation). -/
theorem tokenBase_nonneg_atomic (n : Nat) (sender receiver : Fin (n + 1)) (amt : Nat)
    (s : TBState n) (h : TokenBase.Reach n s) (hlt : s.balances sender < (amt : Int)) :
    (∀ a, 0 ≤ s.balances a) ∧
    (∃ e, TokenBase._transfer sender receiver amt s = .error e) ∧
    (∃ e, TokenBase._burn sender amt s = .error e) ∧
    outcome s (TokenBase._transfer sender receiver amt s) = s ∧
    outcome s (TokenBase._burn sender amt s) = s := by
  have hT : ∃ e, TokenBase._transfer sender receiver amt s = .error e := by
    unfold TokenBase._transfer
    split_ifs <;> exact ⟨_, rfl⟩
  have hB : ∃ e, TokenBase._burn sender amt s = .error e := by
    unfold TokenBase._burn
    split_ifs <;> exact ⟨_, rfl⟩
  refine ⟨tokenBase_reach_nonneg s h, hT, hB, ?_, ?_⟩
  · obtain ⟨e, he⟩ := hT
    rw [he]; rfl
  · obtain ⟨e, he⟩ := hB
    rw [he]; rfl

/-- Witness for C6: the fresh two-account ledger, with a transfer and a
burn of 1 from the empty account 1. -/
theorem tokenBase_nonneg_atomic_w :
    ((TokenBase.fresh 2).balances 1 < ((1 : Nat) : Int)) ∧
    ((∀ a, 0 ≤ (TokenBase.fresh 2).balances a) ∧
     (∃ e, TokenBase._transfer 1 2 1 (TokenBase.fresh 2) = .error e) ∧
     (∃ e, TokenBase._burn 1 1 (TokenBase.fresh 2) = .error e) ∧
     outcome (TokenBase.fresh 2) (TokenBase._transfer 1 2 1 (TokenBase.fresh 2)) =
       TokenBase.fresh 2 ∧
     outcome (TokenBase.fresh 2) (TokenBase._burn 1 1 (TokenBase.fresh 2)) =
       TokenBase.fresh 2) :=
  ⟨by decide,
   tokenBase_nonneg_atomic 2 1 2 1 (TokenBase.fresh 2) TokenBase.Reach.fresh (by decide)⟩

/-- The interaction of the attacker with the contract conserves
`attEth + balances[atk]`, whether running a withdraw call (first
component) or an attacker program (second component). -/
theorem interp_phi (atk : Nat) (strat : Strat) (f : Nat) :
    (∀ amt s s', (interp atk strat f).1 amt s = some s' → phi atk s' = phi atk s) ∧
    (∀ p s, phi atk ((interp atk strat f).2 p s).1 = phi atk s) := by
  induction f with
  | zero =>
    constructor
    · intro amt s s' h
      simp [interp] at h
    · intro p s
      rfl
  | succ f ih =>
    obtain ⟨ihU, ihA⟩ := ih
    constructor
    · intro amt s s' h
      simp only [interp] at h
      split at h
      · split at h
        · split at h
          · split at h
            · injection h with h2
              subst h2
              have hA := ihA (strat ⟨s.balances, s.contractEth - amt, s.attEth + amt⟩)
                ⟨s.balances, s.contractEth - amt, s.attEth + amt⟩
              unfold phi at hA ⊢
              dsimp only at hA ⊢
              simp only [Function.update_same]
              omega
            · exact absurd h (by simp)
          · exact absurd h (by simp)
        · exact absurd h (by simp)
      · exact absurd h (by simp)
    · intro p s
      cases p with
      | ret b => rfl
      | callU amt k =>
        simp only [interp]
        cases hU : (interp atk strat f).1 amt s with
        | some s' =>
          simp only [hU]
          rw [ihA]
          exact ihU amt s s' hU
        | none =>
          simp only [hU]
          rw [ihA]
      | callD amt k =>
        simp only [interp]
        split
        · rw [ihA]
          unfold phi
          simp only [Function.update_same]
          omega
        · rw [ihA]

/-- Claim C10, settled against the `^0.8.0` semantics of the source: the
canonical reentrancy attack on `unsafeWithdraw` (balance 100, reenter
with 100 on every incoming transfer) reverts as a whole, because the
checked decrement `balances[msg.sender] -= _amount` underflows on the
outer frame; a nested invocation issued at the mid-call state does pass
its balance check against the still-undecremented balance 100 and
completes; and yet no strategy, fuel, amount or starting state lets a
completed `unsafeWithdraw` transaction raise the attacker ether holdings
by more than the recorded balance. -/
theorem unguardedWithdraw_no_excess :
    runWithdrawU 1 (drainStrat 100) 5 100 ⟨Function.update (fun _ => 0) 1 100, 500, 0⟩ =
      none ∧
    (∃ s', runWithdrawU 1 (fun _ => .ret true) 4 100
        ⟨Function.update (fun _ => 0) 1 100, 400, 100⟩ = some s' ∧
      s'.attEth = 200 ∧ s'.balances 1 = 0) ∧
    ¬ ∃ (strat : Strat) (f amt : Nat) (s s' : EState),
        runWithdrawU 1 strat f amt s = some s' ∧
        s.attEth + s.balances 1 < s'.attEth := by
  refine ⟨rfl, ⟨_, rfl, rfl, ?_⟩, ?_⟩
  · rfl
  · rintro ⟨strat, f, amt, s, s', hrun, hlt⟩
    have hphi := (interp_phi 1 strat f).1 amt s s' hrun
    unfold phi at hphi
    omega
